import Mathlib

/-!
Verification of the schema-to-endpoint synthesis pipeline of
super-rest-router (src/rest-router.js).

The JavaScript source is embedded shallowly:

* JS objects used as string-keyed maps (the options object, the
  sequelize model registry) become association lists
  `List (String × α)` whose keys are pairwise distinct, with property
  read `jsGet` and property assignment `jsSet` following JS semantics
  (assignment replaces the value in place when the key exists,
  otherwise appends the key).
* The asynchronous introspection step `auto.run(callback)` is
  parameterised by its outcome: an `Except JSError` value holding
  either the error passed to the callback or the introspected tables
  object `auto.tables` (keys are table names, values are the column
  descriptions).
* The express router is a record carrying an identity tag `rid` (so
  that "the same router object" is expressible functionally) and the
  list of endpoint paths mounted on it; epilogue route registration
  appends the endpoint paths of each resource in order.
* The promise returned by `createRouter` becomes the `Except` result
  of a total function: rejection is `Except.error`, resolution is
  `Except.ok` with the record resolved in the source
  (rest instance, router, resources).
-/

namespace RestRouterSpec

/-- An opaque JavaScript error value, as passed to the introspection
callback by `auto.run`. -/
structure JSError where
  msg : String
  deriving Repr, DecidableEq

/-- A JavaScript value, as far as the options object of the
constructor needs: strings, numbers, booleans, null, and nested
objects given as key-value lists. -/
inductive JSValue where
  | str : String → JSValue
  | num : Int → JSValue
  | bool : Bool → JSValue
  | null : JSValue
  | obj : List (String × JSValue) → JSValue

/-- JS property read `m[k]`: the value stored under the first
occurrence of the key, if any. -/
def jsGet {α : Type} : List (String × α) → String → Option α
  | [], _ => none
  | kv :: rest, k => if kv.1 = k then some kv.2 else jsGet rest k

/-- JS property assignment `m[k] = v`: if the key is present its value
is replaced in place, otherwise the pair is appended at the end. -/
def jsSet {α : Type} : List (String × α) → String → α → List (String × α)
  | [], k, v => [(k, v)]
  | kv :: rest, k, v => if kv.1 = k then (k, v) :: rest else kv :: jsSet rest k v

/-- `Object.assign(m, src)`: every own key of `src` is assigned onto
`m`, in the enumeration order of `src`. -/
def objectAssignInto {α : Type} (m : List (String × α)) (src : List (String × α)) :
    List (String × α) :=
  src.foldl (fun acc kv => jsSet acc kv.1 kv.2) m

/-- The default options object of the `RESTRouter` constructor,
transcribed from the source:
dialect "mysql", logging false, define with timestamps false and
freezeTableName true, closeConnectionAutomatically false,
directory "models". -/
def defaultOptions : List (String × JSValue) :=
  [ ("dialect", JSValue.str "mysql"),
    ("logging", JSValue.bool false),
    ("define", JSValue.obj
      [ ("timestamps", JSValue.bool false),
        ("freezeTableName", JSValue.bool true) ]),
    ("closeConnectionAutomatically", JSValue.bool false),
    ("directory", JSValue.str "models") ]

/-- The column description object `auto.tables[name]` produced by the
introspector for one table: column names mapped to a type tag. The
pipeline never inspects it, it only forwards it to
`sequelize.define`. -/
structure TableDesc where
  cols : List (String × String)
  deriving Repr, DecidableEq

/-- A sequelize model handle, as produced by
`sequelize.define(name, table)` and read back from
`sequelize.models[name]`. -/
structure Model where
  name : String
  table : TableDesc
  deriving Repr, DecidableEq

/-- Modelled from the spec: the sequelize model registry
(`sequelize.define` / `sequelize.models`) is external library code not
under src/. Per the registry contract, registering a table name that
is already registered atomically replaces the prior handle, which is
JS keyed-object assignment `models[name] = model` on the `models`
object the source reads back via `sequelize.models[name]`. -/
def sequelizeDefine (models : List (String × Model)) (name : String)
    (table : TableDesc) : List (String × Model) :=
  jsSet models name (Model.mk name table)

/-- An epilogue resource as built by
`epilogue.resource(\x7b model, endpoints \x7d)`: the model handle it
is bound to and its endpoint paths. -/
structure Resource where
  model : Model
  endpoints : List String
  deriving Repr, DecidableEq

/-- The endpoint paths computed for a table name in the source:
`[/name, /name/:id]`. -/
def endpointsFor (name : String) : List String :=
  ["/" ++ name, "/" ++ name ++ "/:id"]

/-- The collection path of a resource: the first of its endpoint
paths. -/
def collectionPath (r : Resource) : String :=
  r.endpoints.headD ""

/-- An express router: an identity tag (standing for JS object
identity) and the endpoint paths mounted on it so far. -/
structure Router where
  rid : Nat
  routes : List String
  deriving Repr, DecidableEq

/-- The router produced by `new Router()`: a fresh object with no
routes. -/
def freshRouter : Router :=
  Router.mk 0 []

/-- The possible values of the optional `router` argument of
`createRouter` that the claims mention: the falsy values undefined,
null, false, 0 and the empty string, or a router object (truthy). -/
inductive RouterArg where
  | undef : RouterArg
  | nullV : RouterArg
  | falseV : RouterArg
  | zeroV : RouterArg
  | emptyStrV : RouterArg
  | routerV : Router → RouterArg
  deriving Repr, DecidableEq

/-- JS truthiness of a `RouterArg`: undefined, null, false, 0 and the
empty string are falsy, a router object is truthy. -/
def jsTruthy : RouterArg → Bool
  | RouterArg.routerV _ => true
  | _ => false

/-- The line `this.router = router ? router : new Router()` of the
source: a truthy argument is used as is, any falsy argument is
replaced by a freshly created router. -/
def initialRouter (arg : RouterArg) : Router :=
  match arg with
  | RouterArg.routerV r => r
  | _ => freshRouter

/-- The mutable state threaded through the `forEach` loop of
`createRouter`: the sequelize model registry, the resource list being
pushed to, and the router epilogue mounts routes on. -/
structure RunState where
  models : List (String × Model)
  resources : List Resource
  router : Router
  deriving Repr, DecidableEq

/-- One iteration of the `forEach` loop of `createRouter` over a table
entry `(name, table)`: define the model, read the handle back from the
registry, compute the two endpoint paths, build the epilogue resource,
push it, and mount its endpoints on the router. -/
def defineStep (st : RunState) (nt : String × TableDesc) : RunState :=
  let models1 := sequelizeDefine st.models nt.1 nt.2
  let model := (jsGet models1 nt.1).getD (Model.mk nt.1 nt.2)
  let endpoints := endpointsFor nt.1
  let resource := Resource.mk model endpoints
  RunState.mk models1 (st.resources ++ [resource])
    (Router.mk st.router.rid (st.router.routes ++ endpoints))

/-- The `RESTRouter` instance after its constructor ran: the stored
credentials and the options merged over the defaults by
`Object.assign` with an empty target. -/
structure RESTRouter where
  database : String
  user : String
  password : String
  options : List (String × JSValue)

/-- The `RESTRouter` constructor: stores the credentials and merges
the supplied options object over `defaultOptions` via
`Object.assign` on a fresh empty target (an omitted options argument
is the empty object, over which `Object.assign` adds nothing). -/
def RESTRouter.ofNew (database user password : String)
    (options : List (String × JSValue)) : RESTRouter :=
  RESTRouter.mk database user password
    (objectAssignInto (objectAssignInto [] defaultOptions) options)

/-- The record the promise of `createRouter` resolves with: the rest
instance, the router and the resource list. -/
structure RunOutput where
  rest : RESTRouter
  router : Router
  resources : List Resource

/-- The method `RESTRouter#createRouter(router)`. The outcome of the
asynchronous introspection call `auto.run` is the `intro` parameter:
the error handed to the callback, or the tables object `auto.tables`.
On an introspection error the promise rejects with exactly that error;
otherwise the `forEach` loop defines one model and one resource per
table key and the promise resolves with the rest instance, the router
and the resource list. -/
def RESTRouter.createRouter (self : RESTRouter)
    (intro : Except JSError (List (String × TableDesc)))
    (arg : RouterArg) : Except JSError RunOutput :=
  let router0 := initialRouter arg
  match intro with
  | Except.error e => Except.error e
  | Except.ok tables =>
      let final := tables.foldl defineStep (RunState.mk [] [] router0)
      Except.ok (RunOutput.mk self final.router final.resources)

/-- The resource synthesized for a table entry, as one loop iteration
builds it: the model handle for the entry and its two endpoint
paths. -/
def resourceFor (nt : String × TableDesc) : Resource :=
  Resource.mk (Model.mk nt.1 nt.2) (endpointsFor nt.1)

/-- The static method `RESTRouter.create(database, user, password,
options, router)`: instantiate a `RESTRouter` and call its
`createRouter` method, returning its result. -/
def RESTRouter.create (database user password : String)
    (options : List (String × JSValue))
    (intro : Except JSError (List (String × TableDesc)))
    (arg : RouterArg) : Except JSError RunOutput :=
  (RESTRouter.ofNew database user password options).createRouter intro arg

/-! ### Lemmas about JS keyed-object reads and writes -/

/-- Reading back the key just assigned yields the assigned value. -/
theorem jsGet_jsSet_self {α : Type} (m : List (String × α)) (k : String) (v : α) :
    jsGet (jsSet m k v) k = some v := by
  induction m with
  | nil => simp [jsSet, jsGet]
  | cons kv rest ih =>
      by_cases h : kv.1 = k
      · simp [jsSet, jsGet, h]
      · simp [jsSet, jsGet, h, ih]

/-- Assigning one key leaves the value of every other key unchanged. -/
theorem jsGet_jsSet_ne {α : Type} (m : List (String × α)) (k k' : String) (v : α)
    (h : k' ≠ k) : jsGet (jsSet m k v) k' = jsGet m k' := by
  have hk : ¬ k = k' := fun hh => h (Eq.symm hh)
  induction m with
  | nil => simp [jsSet, jsGet, hk]
  | cons kv rest ih =>
      obtain ⟨k1, v1⟩ := kv
      by_cases hkv : k1 = k
      · subst hkv
        simp [jsSet, jsGet, hk]
      · simp [jsSet, jsGet, hkv, ih]

/-- The keys after an assignment: unchanged when the key was present,
extended by the key otherwise. -/
theorem keys_jsSet {α : Type} (m : List (String × α)) (k : String) (v : α) :
    (jsSet m k v).map Prod.fst =
      (if k ∈ m.map Prod.fst then m.map Prod.fst else m.map Prod.fst ++ [k]) := by
  induction m with
  | nil => simp [jsSet]
  | cons kv rest ih =>
      by_cases h : kv.1 = k
      · simp [jsSet, h]
      · have hne : ¬ k = kv.1 := fun hh => h hh.symm
        by_cases hk : k ∈ rest.map Prod.fst
        · simp [jsSet, h, hk, hne, ih]
        · simp [jsSet, h, hk, hne, ih]

/-- A key absent from an association list reads as `none`. -/
theorem jsGet_eq_none_of_not_mem {α : Type} (m : List (String × α)) (k : String)
    (h : k ∉ m.map Prod.fst) : jsGet m k = none := by
  induction m with
  | nil => simp [jsGet]
  | cons kv rest ih =>
      simp only [List.map_cons, List.mem_cons] at h
      push_neg at h
      have h1 : ¬ kv.1 = k := fun hh => h.1 (Eq.symm hh)
      simp [jsGet, h1, ih h.2]

/-- Reading after `Object.assign` a key absent from the source keeps
the value of the target. -/
theorem jsGet_objectAssignInto_of_not_mem {α : Type} (src : List (String × α)) :
    ∀ (m : List (String × α)) (k : String), k ∉ src.map Prod.fst →
      jsGet (objectAssignInto m src) k = jsGet m k := by
  induction src with
  | nil => intro m k _; rfl
  | cons kv rest ih =>
      intro m k hk
      simp only [List.map_cons, List.mem_cons] at hk
      push_neg at hk
      have step : objectAssignInto m (kv :: rest) =
          objectAssignInto (jsSet m kv.1 kv.2) rest := rfl
      rw [step, ih (jsSet m kv.1 kv.2) k hk.2, jsGet_jsSet_ne m kv.1 k kv.2 hk.1]

/-- Reading after `Object.assign` a key of the source reads its value
from the source, whatever the target held. The source keys are
pairwise distinct, as for every JS object. -/
theorem jsGet_objectAssignInto_of_mem {α : Type} (src : List (String × α)) :
    ∀ (m : List (String × α)) (k : String), (src.map Prod.fst).Nodup →
      k ∈ src.map Prod.fst →
      jsGet (objectAssignInto m src) k = jsGet src k := by
  induction src with
  | nil => intro m k _ hk; simp at hk
  | cons kv rest ih =>
      intro m k hnd hk
      simp only [List.map_cons, List.nodup_cons] at hnd
      have step : objectAssignInto m (kv :: rest) =
          objectAssignInto (jsSet m kv.1 kv.2) rest := rfl
      by_cases h : kv.1 = k
      · subst h
        rw [step,
          jsGet_objectAssignInto_of_not_mem rest (jsSet m kv.1 kv.2) kv.1 hnd.1,
          jsGet_jsSet_self]
        simp [jsGet]
      · have hmem : k ∈ rest.map Prod.fst := by
          simp only [List.map_cons, List.mem_cons] at hk
          rcases hk with hk | hk
          · exact absurd hk.symm h
          · exact hk
        rw [step, ih (jsSet m kv.1 kv.2) k hnd.2 hmem]
        simp [jsGet, h]

/-! ### Lemmas about the forEach loop of createRouter -/

/-- One loop iteration, written without the registry read-back: the
handle read from the registry right after defining it is the handle
just defined. -/
theorem defineStep_eq (st : RunState) (nt : String × TableDesc) :
    defineStep st nt =
      RunState.mk (sequelizeDefine st.models nt.1 nt.2)
        (st.resources ++ [resourceFor nt])
        (Router.mk st.router.rid (st.router.routes ++ endpointsFor nt.1)) := by
  simp [defineStep, resourceFor, sequelizeDefine, jsGet_jsSet_self]

/-- The resource list accumulated by the loop: the initial list
followed by one resource per table entry, in enumeration order. -/
theorem resources_foldl (tables : List (String × TableDesc)) :
    ∀ st : RunState, (tables.foldl defineStep st).resources =
      st.resources ++ tables.map resourceFor := by
  induction tables with
  | nil => intro st; simp
  | cons nt rest ih =>
      intro st
      simp only [List.foldl_cons, List.map_cons]
      rw [ih (defineStep st nt), defineStep_eq]
      simp

/-- The router after the loop: same identity as the initial router,
with the endpoint paths of every table appended in enumeration
order. -/
theorem router_foldl (tables : List (String × TableDesc)) :
    ∀ st : RunState, (tables.foldl defineStep st).router =
      Router.mk st.router.rid
        (st.router.routes ++ tables.flatMap (fun nt => endpointsFor nt.1)) := by
  induction tables with
  | nil => intro st; simp
  | cons nt rest ih =>
      intro st
      simp only [List.foldl_cons, List.flatMap_cons]
      rw [ih (defineStep st nt), defineStep_eq]
      simp

/-- Prepending the path separator to a table name is injective, so
two distinct table names never share a collection path. -/
theorem slashPath_injective : Function.Injective (fun n : String => "/" ++ n) := by
  intro a b h
  have hd := congrArg String.data h
  simp only [String.data_append] at hd
  exact String.ext (List.append_cancel_left hd)

/-- An assignment puts its key among the keys. -/
theorem mem_keys_jsSet {α : Type} (m : List (String × α)) (k : String) (v : α) :
    k ∈ (jsSet m k v).map Prod.fst := by
  rw [keys_jsSet]
  by_cases h : k ∈ m.map Prod.fst <;> simp [h]

/-- An assignment preserves distinctness of the keys. -/
theorem keys_nodup_jsSet {α : Type} (m : List (String × α)) (k : String) (v : α)
    (h : (m.map Prod.fst).Nodup) : ((jsSet m k v).map Prod.fst).Nodup := by
  rw [keys_jsSet]
  by_cases hk : k ∈ m.map Prod.fst
  · simpa [hk] using h
  · simp only [hk, if_false]
    exact List.Nodup.append h (List.nodup_singleton k) (by simpa using hk)

/-- Assigning the default options onto a fresh empty target copies
them verbatim. -/
theorem assignInto_nil_defaultOptions :
    objectAssignInto ([] : List (String × JSValue)) defaultOptions = defaultOptions := by
  rfl

/-- C1: over a successful introspection that enumerates N tables
(N greater or equal 0, table names pairwise distinct as keys of the
tables object), createRouter resolves with exactly N resources, one
per table, whose collection paths are pairwise distinct; with zero
tables it resolves with the empty resource list instead of an
error. -/
theorem claim_C1_one_resource_per_table (self : RESTRouter)
    (tables : List (String × TableDesc)) (arg : RouterArg)
    (hnd : (tables.map Prod.fst).Nodup) :
    ∃ out : RunOutput,
      self.createRouter (Except.ok tables) arg = Except.ok out ∧
      out.resources.length = tables.length ∧
      (out.resources.map collectionPath).Nodup := by
  refine ⟨_, rfl, ?_, ?_⟩
  · show (tables.foldl defineStep (RunState.mk [] [] (initialRouter arg))).resources.length
        = tables.length
    rw [resources_foldl]
    simp
  · show ((tables.foldl defineStep
        (RunState.mk [] [] (initialRouter arg))).resources.map collectionPath).Nodup
    rw [resources_foldl]
    simp only [List.nil_append, List.map_map]
    have hcomp : (collectionPath ∘ resourceFor)
        = (fun n : String => "/" ++ n) ∘ Prod.fst := by
      funext nt
      simp [collectionPath, resourceFor, endpointsFor]
    rw [hcomp, ← List.map_map]
    exact hnd.map slashPath_injective

/-- Closed instance of C1: a run over the two tables users and orders
resolves with two resources with distinct collection paths. -/
theorem claim_C1_witness :
    ∃ out : RunOutput,
      (RESTRouter.ofNew "db" "u" "p" []).createRouter
          (Except.ok [("users", TableDesc.mk [("id", "INT")]),
                      ("orders", TableDesc.mk [("id", "INT")])])
          RouterArg.undef = Except.ok out ∧
      out.resources.length = [("users", TableDesc.mk [("id", "INT")]),
                      ("orders", TableDesc.mk [("id", "INT")])].length ∧
      (out.resources.map collectionPath).Nodup :=
  claim_C1_one_resource_per_table (RESTRouter.ofNew "db" "u" "p" [])
    [("users", TableDesc.mk [("id", "INT")]), ("orders", TableDesc.mk [("id", "INT")])]
    RouterArg.undef (by decide)

/-- C3: the promise of createRouter settles exactly once: when the
introspection callback receives an error the promise rejects with
exactly that error and never resolves (so no resource set, partial or
otherwise, is delivered), and when introspection succeeds the promise
resolves and never rejects. -/
theorem claim_C3_settles_once (self : RESTRouter)
    (intro : Except JSError (List (String × TableDesc))) (arg : RouterArg) :
    (∃ e, intro = Except.error e ∧
        self.createRouter intro arg = Except.error e ∧
        ∀ out : RunOutput, self.createRouter intro arg ≠ Except.ok out) ∨
    (∃ tables, ∃ out : RunOutput, intro = Except.ok tables ∧
        self.createRouter intro arg = Except.ok out ∧
        ∀ e, self.createRouter intro arg ≠ Except.error e) := by
  cases intro with
  | error e =>
      exact Or.inl ⟨e, rfl, rfl, fun out h => by simp [RESTRouter.createRouter] at h⟩
  | ok tables =>
      exact Or.inr ⟨tables, _, rfl, rfl, fun e h => by simp [RESTRouter.createRouter] at h⟩

/-- C4: every resource a run synthesizes is bound to exactly the two
endpoint paths /name and /name/:id computed from the table name of
its model handle, a pure function of the name alone. -/
theorem claim_C4_two_endpoints (self : RESTRouter)
    (tables : List (String × TableDesc)) (arg : RouterArg) (out : RunOutput)
    (hout : self.createRouter (Except.ok tables) arg = Except.ok out)
    (r : Resource) (hr : r ∈ out.resources) :
    r.endpoints = ["/" ++ r.model.name, "/" ++ r.model.name ++ "/:id"] := by
  simp only [RESTRouter.createRouter, Except.ok.injEq] at hout
  subst hout
  simp only [resources_foldl, List.nil_append, List.mem_map] at hr
  obtain ⟨nt, _, rfl⟩ := hr
  simp [resourceFor, endpointsFor]

/-- Closed instance of C4: in a run over one table named users, the
synthesized resource carries exactly the paths /users and
/users/:id. -/
theorem claim_C4_witness :
    (Resource.mk (Model.mk "users" (TableDesc.mk [])) (endpointsFor "users")).endpoints
      = ["/" ++ "users", "/" ++ "users" ++ "/:id"] :=
  claim_C4_two_endpoints (RESTRouter.ofNew "db" "u" "p" [])
    [("users", TableDesc.mk [])] RouterArg.undef
    (RunOutput.mk (RESTRouter.ofNew "db" "u" "p" [])
      (Router.mk 0 (endpointsFor "users"))
      [Resource.mk (Model.mk "users" (TableDesc.mk [])) (endpointsFor "users")])
    (by rfl)
    (Resource.mk (Model.mk "users" (TableDesc.mk [])) (endpointsFor "users"))
    (by simp)

/-- C6: when an existing router object is supplied to createRouter,
every generated endpoint is mounted onto that same object (same
identity, its previous routes kept, the generated endpoint paths
appended) and that object is the router in the resolution value; when
no router is supplied, a newly created router receives the endpoints
and is returned. -/
theorem claim_C6_router_argument (self : RESTRouter)
    (tables : List (String × TableDesc)) (r : Router) :
    (∃ out : RunOutput,
        self.createRouter (Except.ok tables) (RouterArg.routerV r) = Except.ok out ∧
        out.router.rid = r.rid ∧
        out.router.routes = r.routes ++ tables.flatMap (fun nt => endpointsFor nt.1)) ∧
    (∃ out : RunOutput,
        self.createRouter (Except.ok tables) RouterArg.undef = Except.ok out ∧
        out.router.rid = freshRouter.rid ∧
        out.router.routes = tables.flatMap (fun nt => endpointsFor nt.1)) := by
  constructor
  · refine ⟨_, rfl, ?_, ?_⟩
    · show ((tables.foldl defineStep
          (RunState.mk [] [] (initialRouter (RouterArg.routerV r)))).router).rid = r.rid
      rw [router_foldl]
      rfl
    · show ((tables.foldl defineStep
          (RunState.mk [] [] (initialRouter (RouterArg.routerV r)))).router).routes
          = r.routes ++ tables.flatMap (fun nt => endpointsFor nt.1)
      rw [router_foldl]
      rfl
  · refine ⟨_, rfl, ?_, ?_⟩
    · show ((tables.foldl defineStep
          (RunState.mk [] [] (initialRouter RouterArg.undef))).router).rid
          = freshRouter.rid
      rw [router_foldl]
      rfl
    · show ((tables.foldl defineStep
          (RunState.mk [] [] (initialRouter RouterArg.undef))).router).routes
          = tables.flatMap (fun nt => endpointsFor nt.1)
      rw [router_foldl]
      rfl

/-- C7: the resources appear in the resolved list, and their endpoint
paths are mounted on the router, in exactly the enumeration order of
the tables object of that run. -/
theorem claim_C7_enumeration_order (self : RESTRouter)
    (tables : List (String × TableDesc)) (arg : RouterArg) :
    ∃ out : RunOutput,
      self.createRouter (Except.ok tables) arg = Except.ok out ∧
      out.resources.map (fun res => res.model.name) = tables.map Prod.fst ∧
      out.router.routes = (initialRouter arg).routes
        ++ tables.flatMap (fun nt => endpointsFor nt.1) := by
  refine ⟨_, rfl, ?_, ?_⟩
  · show ((tables.foldl defineStep
        (RunState.mk [] [] (initialRouter arg))).resources.map _) = _
    rw [resources_foldl]
    simp [resourceFor]
  · show ((tables.foldl defineStep
        (RunState.mk [] [] (initialRouter arg))).router).routes = _
    rw [router_foldl]

/-- C8: the static method RESTRouter.create is exactly the composition
of the constructor and the createRouter method at the same
arguments. -/
theorem claim_C8_static_create_equivalence (database user password : String)
    (options : List (String × JSValue))
    (intro : Except JSError (List (String × TableDesc))) (arg : RouterArg) :
    RESTRouter.create database user password options intro arg =
      (RESTRouter.ofNew database user password options).createRouter intro arg :=
  rfl

/-- C10: every falsy router argument (undefined, null, false, 0, the
empty string) behaves exactly as the omitted argument: the run result
is identical, and on success the resolved router is the freshly
created router carrying the generated endpoints, never the supplied
falsy value. -/
theorem claim_C10_falsy_router_argument (self : RESTRouter)
    (intro : Except JSError (List (String × TableDesc))) (arg : RouterArg)
    (hfalsy : jsTruthy arg = false) :
    self.createRouter intro arg = self.createRouter intro RouterArg.undef ∧
    (∀ tables, intro = Except.ok tables →
      ∃ out : RunOutput, self.createRouter intro arg = Except.ok out ∧
        out.router.rid = freshRouter.rid ∧
        out.router.routes = tables.flatMap (fun nt => endpointsFor nt.1)) := by
  have hinit : initialRouter arg = freshRouter := by
    cases arg with
    | routerV r => simp [jsTruthy] at hfalsy
    | _ => rfl
  constructor
  · show RESTRouter.createRouter self intro arg = _
    unfold RESTRouter.createRouter
    rw [hinit]
    rfl
  · intro tables hintro
    subst hintro
    refine ⟨_, rfl, ?_, ?_⟩
    · show ((tables.foldl defineStep
          (RunState.mk [] [] (initialRouter arg))).router).rid = _
      rw [router_foldl, hinit]
    · show ((tables.foldl defineStep
          (RunState.mk [] [] (initialRouter arg))).router).routes = _
      rw [router_foldl, hinit]
      rfl

/-- Closed instance of C10: passing null as the router argument gives
the same result as omitting it, and the resolved router is the fresh
router with the generated endpoints. -/
theorem claim_C10_witness :
    ((RESTRouter.ofNew "db" "u" "p" []).createRouter
        (Except.ok [("users", TableDesc.mk [])]) RouterArg.nullV =
      (RESTRouter.ofNew "db" "u" "p" []).createRouter
        (Except.ok [("users", TableDesc.mk [])]) RouterArg.undef) ∧
    (∀ tables : List (String × TableDesc),
        (Except.ok [("users", TableDesc.mk [])]
          : Except JSError (List (String × TableDesc))) = Except.ok tables →
      ∃ out : RunOutput,
        (RESTRouter.ofNew "db" "u" "p" []).createRouter
            (Except.ok [("users", TableDesc.mk [])]) RouterArg.nullV
          = Except.ok out ∧
        out.router.rid = freshRouter.rid ∧
        out.router.routes = tables.flatMap (fun nt => endpointsFor nt.1)) :=
  claim_C10_falsy_router_argument (RESTRouter.ofNew "db" "u" "p" [])
    (Except.ok [("users", TableDesc.mk [])]) RouterArg.nullV (by rfl)

/-- A key present among the keys reads as some value. -/
theorem jsGet_isSome_of_mem {α : Type} (m : List (String × α)) (k : String)
    (h : k ∈ m.map Prod.fst) : ∃ v, jsGet m k = some v := by
  induction m with
  | nil => simp at h
  | cons kv rest ih =>
      by_cases hk : kv.1 = k
      · exact ⟨kv.2, by simp [jsGet, hk]⟩
      · have hmem : k ∈ rest.map Prod.fst := by
          simp only [List.map_cons, List.mem_cons] at h
          rcases h with h | h
          · exact absurd h.symm hk
          · exact h
        obtain ⟨v, hv⟩ := ih hmem
        exact ⟨v, by simp [jsGet, hk, hv]⟩

/-- C2 counterexample: the code performs no path-collision detection.
The two distinct table names a and a/:id both derive the endpoint
path /a/:id, yet the run resolves successfully and delivers both
resources, instead of failing with a collision error and delivering
none. -/
theorem claim_C2_counterexample :
    ("a" : String) ≠ "a/:id" ∧
    ("/a/:id" ∈ endpointsFor "a" ∧ "/a/:id" ∈ endpointsFor "a/:id") ∧
    ∃ out : RunOutput,
      (RESTRouter.ofNew "db" "u" "p" []).createRouter
          (Except.ok [("a", TableDesc.mk []), ("a/:id", TableDesc.mk [])])
          RouterArg.undef = Except.ok out ∧
      out.resources.length = 2 := by
  refine ⟨by decide, ⟨by decide, by decide⟩, ⟨_, rfl, by rfl⟩⟩

/-- C2 amended: the pipeline never checks derived paths for
collisions: even in a run where two distinct table names derive a
common endpoint path, createRouter resolves successfully with one
resource per table, instead of failing with any collision error. -/
theorem claim_C2_amended_no_collision_check (self : RESTRouter)
    (tables : List (String × TableDesc)) (arg : RouterArg)
    (n1 n2 : String) (t1 t2 : TableDesc) (p : String)
    (h1 : (n1, t1) ∈ tables) (h2 : (n2, t2) ∈ tables) (hne : n1 ≠ n2)
    (hp1 : p ∈ endpointsFor n1) (hp2 : p ∈ endpointsFor n2) :
    ∃ out : RunOutput,
      self.createRouter (Except.ok tables) arg = Except.ok out ∧
      out.resources.length = tables.length := by
  refine ⟨_, rfl, ?_⟩
  show (tables.foldl defineStep
      (RunState.mk [] [] (initialRouter arg))).resources.length = tables.length
  rw [resources_foldl]
  simp

/-- Closed instance of the amended C2, at the colliding pair of table
names a and a/:id. -/
theorem claim_C2_amended_witness :
    ∃ out : RunOutput,
      (RESTRouter.ofNew "db" "u" "p" []).createRouter
          (Except.ok [("a", TableDesc.mk []), ("a/:id", TableDesc.mk [])])
          RouterArg.undef = Except.ok out ∧
      out.resources.length
        = [("a", TableDesc.mk []), ("a/:id", TableDesc.mk [])].length :=
  claim_C2_amended_no_collision_check (RESTRouter.ofNew "db" "u" "p" [])
    [("a", TableDesc.mk []), ("a/:id", TableDesc.mk [])] RouterArg.undef
    "a" "a/:id" (TableDesc.mk []) (TableDesc.mk []) "/a/:id"
    (by decide) (by decide) (by decide) (by decide) (by decide)

/-- C5: registering a table description under an already registered
name replaces the prior model handle instead of adding a second one:
after defining the same table name twice the registry reads back the
latest handle and holds exactly one entry for that name; and within a
run the final resource list contains each introspected table name
exactly once. -/
theorem claim_C5_idempotent_reregistration (m : List (String × Model))
    (name : String) (t1 t2 : TableDesc)
    (hm : (m.map Prod.fst).Nodup)
    (self : RESTRouter) (tables : List (String × TableDesc)) (arg : RouterArg)
    (hnd : (tables.map Prod.fst).Nodup) (hmem : name ∈ tables.map Prod.fst) :
    jsGet (sequelizeDefine (sequelizeDefine m name t1) name t2) name
        = some (Model.mk name t2) ∧
    ((sequelizeDefine (sequelizeDefine m name t1) name t2).map Prod.fst).count name
        = 1 ∧
    (∃ out : RunOutput,
      self.createRouter (Except.ok tables) arg = Except.ok out ∧
      (out.resources.map (fun res => res.model.name)).count name = 1) := by
  refine ⟨jsGet_jsSet_self _ _ _, ?_, ?_⟩
  · have h1 : ((sequelizeDefine m name t1).map Prod.fst).Nodup :=
      keys_nodup_jsSet m name (Model.mk name t1) hm
    have h2 : ((sequelizeDefine (sequelizeDefine m name t1) name t2).map
        Prod.fst).Nodup :=
      keys_nodup_jsSet (sequelizeDefine m name t1) name (Model.mk name t2) h1
    have h3 : name ∈ (sequelizeDefine (sequelizeDefine m name t1) name t2).map
        Prod.fst :=
      mem_keys_jsSet (sequelizeDefine m name t1) name (Model.mk name t2)
    exact List.count_eq_one_of_mem h2 h3
  · refine ⟨_, rfl, ?_⟩
    show (((tables.foldl defineStep
        (RunState.mk [] [] (initialRouter arg))).resources.map
          (fun res => res.model.name)).count name) = 1
    rw [resources_foldl]
    simp only [List.nil_append, List.map_map]
    have hcomp : ((fun res : Resource => res.model.name) ∘ resourceFor)
        = Prod.fst := by
      funext nt
      rfl
    rw [hcomp]
    exact List.count_eq_one_of_mem hnd hmem

/-- Closed instance of C5: defining users twice leaves one registry
entry holding the latest description, and a run over one users table
lists it exactly once. -/
theorem claim_C5_witness :
    jsGet (sequelizeDefine (sequelizeDefine [] "users" (TableDesc.mk []))
        "users" (TableDesc.mk [("id", "INT")])) "users"
      = some (Model.mk "users" (TableDesc.mk [("id", "INT")])) ∧
    ((sequelizeDefine (sequelizeDefine [] "users" (TableDesc.mk []))
        "users" (TableDesc.mk [("id", "INT")])).map Prod.fst).count "users" = 1 ∧
    (∃ out : RunOutput,
      (RESTRouter.ofNew "db" "u" "p" []).createRouter
          (Except.ok [("users", TableDesc.mk [("id", "INT")])])
          RouterArg.undef = Except.ok out ∧
      (out.resources.map (fun res => res.model.name)).count "users" = 1) :=
  claim_C5_idempotent_reregistration [] "users" (TableDesc.mk [])
    (TableDesc.mk [("id", "INT")]) (by decide)
    (RESTRouter.ofNew "db" "u" "p" [])
    [("users", TableDesc.mk [("id", "INT")])] RouterArg.undef
    (by decide) (by decide)

/-- C9: the constructor merges the caller options over the defaults
by a shallow top-level merge: a top-level key supplied by the caller
reads back exactly the supplied value, entirely replacing the default
for that key (in particular any supplied define object discards the
default timestamps and freezeTableName settings), while a key not
supplied reads back its value from the transcribed defaults. -/
theorem claim_C9_shallow_option_merge (database user password : String)
    (options : List (String × JSValue)) (k : String)
    (hnd : (options.map Prod.fst).Nodup) :
    (k ∈ options.map Prod.fst →
      jsGet (RESTRouter.ofNew database user password options).options k
        = jsGet options k) ∧
    (k ∉ options.map Prod.fst →
      jsGet (RESTRouter.ofNew database user password options).options k
        = jsGet defaultOptions k) := by
  constructor
  · intro hk
    show jsGet (objectAssignInto (objectAssignInto [] defaultOptions) options) k = _
    rw [assignInto_nil_defaultOptions]
    exact jsGet_objectAssignInto_of_mem options defaultOptions k hnd hk
  · intro hk
    show jsGet (objectAssignInto (objectAssignInto [] defaultOptions) options) k = _
    rw [assignInto_nil_defaultOptions]
    exact jsGet_objectAssignInto_of_not_mem options defaultOptions k hk

/-- Closed instance of C9: supplying a define object replaces the
whole default define object, while the unsupplied dialect keeps its
default mysql. -/
theorem claim_C9_witness :
    jsGet (RESTRouter.ofNew "db" "u" "p"
        [("define", JSValue.obj [])]).options "define"
      = some (JSValue.obj []) ∧
    jsGet (RESTRouter.ofNew "db" "u" "p"
        [("define", JSValue.obj [])]).options "dialect"
      = some (JSValue.str "mysql") := by
  constructor
  · have h := (claim_C9_shallow_option_merge "db" "u" "p"
        [("define", JSValue.obj [])] "define" (by simp)).1 (by simp)
    rw [h]
    rfl
  · have h := (claim_C9_shallow_option_merge "db" "u" "p"
        [("define", JSValue.obj [])] "dialect" (by simp)).2 (by simp)
    rw [h]
    rfl

end RestRouterSpec
